import Mathlib

/-!
Verification of the Money Monitor backend (`money-monitor-backend/main.py`).

The backend reads whole Firestore documents into memory and aggregates them
with plain Python loops.  We embed those loops shallowly:

* a Firestore expense document is a record of optional fields
  (`expense.get(k, default)` becomes `Option.getD`);
* Python `float` amounts become `ℚ` with exact arithmetic;
* Python `round(x, 2)` becomes rational rounding-half-to-even scaled by 100;
* Python string comparison (`<`, `>`, `sorted`) becomes code-point
  lexicographic comparison on the character list, and `str.lower()` becomes
  an ASCII lowercase map, both executable by the kernel;
* each handler's accumulation loop becomes a `List.foldl` whose step function
  carries the loop body's conditionals (`continue` = identity step).
-/

/-! ### Python string primitives -/

/-- `str.lower` on one character (ASCII range, as the merchant names use). -/
def lowerChar (c : Char) : Char :=
  if 65 ≤ c.toNat ∧ c.toNat ≤ 90 then Char.ofNat (c.toNat + 32) else c

/-- Python `s.lower()`. -/
def lowerStr (s : String) : String := ⟨s.data.map lowerChar⟩

/-- Python `<` on strings: strict lexicographic order on code points. -/
def listLtB : List Char → List Char → Bool
  | [], [] => false
  | [], _ :: _ => true
  | _ :: _, [] => false
  | x :: xs, y :: ys =>
    if x.toNat < y.toNat then true
    else if y.toNat < x.toNat then false
    else listLtB xs ys

/-- Python `<=` on strings: lexicographic order on code points. -/
def listLeB : List Char → List Char → Bool
  | [], _ => true
  | _ :: _, [] => false
  | x :: xs, y :: ys =>
    if x.toNat < y.toNat then true
    else if y.toNat < x.toNat then false
    else listLeB xs ys

def strLtB (a b : String) : Bool := listLtB a.data b.data

def strLeB (a b : String) : Bool := listLeB a.data b.data

/-- Python `s[:7]` (slicing counts code points). -/
def take7 (s : String) : String := ⟨s.data.take 7⟩

/-! ### Python `round(x, 2)` over exact rationals -/

/-- Round to the nearest integer, ties to the even integer
(CPython's rounding mode). -/
def roundHalfEven (q : ℚ) : ℤ :=
  let n := ⌊q⌋
  let r := q - (n : ℚ)
  if r < 1/2 then n
  else if 1/2 < r then n + 1
  else if n % 2 = 0 then n else n + 1

/-- Python `round(q, 2)`. -/
def round2 (q : ℚ) : ℚ := (roundHalfEven (q * 100) : ℚ) / 100

/-! ### The expense document

A Firestore document under `users/{userId}/expenses`; every field access in
`main.py` goes through `expense.get(...)`, so all fields are optional here. -/

structure ExpenseDoc where
  item : Option String := none
  amount : Option ℚ := none
  type : Option String := none
  category : Option String := none
  note : Option String := none
  source : Option String := none
  date : Option String := none
  userId : Option String := none
deriving DecidableEq

/-- `expense.get('amount', 0)`. -/
def getAmount (d : ExpenseDoc) : ℚ := d.amount.getD 0

/-- `expense.get('category', 'uncategorized')`. -/
def catKey (d : ExpenseDoc) : String := d.category.getD "uncategorized"

def sumAmounts (rs : List ExpenseDoc) : ℚ := (rs.map getAmount).sum

/-! ### `GET /expenses/totals/{userId}` (`get_expense_totals`) -/

structure Totals where
  total : ℚ
  personal : ℚ
  business : ℚ
deriving DecidableEq

/-- One iteration of the totals loop. -/
def totalsStep (t : Totals) (d : ExpenseDoc) : Totals :=
  let amount := getAmount d
  let t1 : Totals := { t with total := t.total + amount }
  if d.type == some "personal" then { t1 with personal := t1.personal + amount }
  else if d.type == some "business" then { t1 with business := t1.business + amount }
  else t1

/-- The aggregation in `get_expense_totals`. -/
def get_expense_totals (rs : List ExpenseDoc) : Totals :=
  rs.foldl totalsStep ⟨0, 0, 0⟩

lemma totalsStep_total (t : Totals) (d : ExpenseDoc) :
    (totalsStep t d).total = t.total + getAmount d := by
  simp only [totalsStep]
  split <;> [rfl; split <;> rfl]

lemma totalsStep_personal (t : Totals) (d : ExpenseDoc) :
    (totalsStep t d).personal
      = t.personal + (if d.type == some "personal" then getAmount d else 0) := by
  simp only [totalsStep]
  split <;> [rfl; split] <;> simp_all

lemma totalsStep_business (t : Totals) (d : ExpenseDoc) :
    (totalsStep t d).business
      = t.business + (if d.type == some "business" then getAmount d else 0) := by
  by_cases hp : (d.type == some "personal") = true
  · have hb : (d.type == some "business") = false := by
      simp only [beq_iff_eq] at hp ⊢; simp [hp]
    simp [totalsStep, hp, hb]
  · simp only [totalsStep, hp]
    split <;> simp_all <;> split <;> simp_all

lemma totals_foldl_total (rs : List ExpenseDoc) (t : Totals) :
    (rs.foldl totalsStep t).total = t.total + sumAmounts rs := by
  induction rs generalizing t with
  | nil => simp [sumAmounts]
  | cons d rs ih => simp [ih, totalsStep_total, sumAmounts]; ring

lemma totals_foldl_personal (rs : List ExpenseDoc) (t : Totals) :
    (rs.foldl totalsStep t).personal
      = t.personal + sumAmounts (rs.filter fun d => d.type == some "personal") := by
  induction rs generalizing t with
  | nil => simp [sumAmounts]
  | cons d rs ih =>
    rw [List.foldl_cons, ih, totalsStep_personal, List.filter_cons]
    by_cases h : (d.type == some "personal") = true <;>
      simp [h, sumAmounts] <;> ring

lemma totals_foldl_business (rs : List ExpenseDoc) (t : Totals) :
    (rs.foldl totalsStep t).business
      = t.business + sumAmounts (rs.filter fun d => d.type == some "business") := by
  induction rs generalizing t with
  | nil => simp [sumAmounts]
  | cons d rs ih =>
    rw [List.foldl_cons, ih, totalsStep_business, List.filter_cons]
    by_cases h : (d.type == some "business") = true <;>
      simp [h, sumAmounts] <;> ring

lemma sumAmounts_split (rs : List ExpenseDoc) :
    sumAmounts rs
      = sumAmounts (rs.filter fun d => d.type == some "personal")
        + sumAmounts (rs.filter fun d => d.type == some "business")
        + sumAmounts (rs.filter fun d =>
            !(d.type == some "personal") && !(d.type == some "business")) := by
  induction rs with
  | nil => simp [sumAmounts]
  | cons d rs ih =>
    by_cases hp : d.type = some "personal"
    · have : ¬ d.type = some "business" := by simp [hp]
      simp only [List.filter_cons]
      simp [sumAmounts, hp, this] at ih ⊢
      rw [ih]; ring
    · by_cases hb : d.type = some "business"
      · simp only [List.filter_cons]
        simp [sumAmounts, hp, hb] at ih ⊢
        rw [ih]; ring
      · simp only [List.filter_cons]
        simp [sumAmounts, hp, hb] at ih ⊢
        rw [ih]; ring

/-- C1: `get_expense_totals` sums every record's amount into `total`,
amounts of records typed exactly `personal` into `personal`, amounts of
records typed exactly `business` into `business`; hence
`total = personal + business + others` where `others` sums the records whose
type is neither. -/
theorem get_expense_totals_spec (rs : List ExpenseDoc) :
    (get_expense_totals rs).total = sumAmounts rs ∧
    (get_expense_totals rs).personal
      = sumAmounts (rs.filter fun d => d.type == some "personal") ∧
    (get_expense_totals rs).business
      = sumAmounts (rs.filter fun d => d.type == some "business") ∧
    (get_expense_totals rs).total
      = (get_expense_totals rs).personal + (get_expense_totals rs).business
        + sumAmounts (rs.filter fun d =>
            !(d.type == some "personal") && !(d.type == some "business")) := by
  have h1 := totals_foldl_total rs ⟨0, 0, 0⟩
  have h2 := totals_foldl_personal rs ⟨0, 0, 0⟩
  have h3 := totals_foldl_business rs ⟨0, 0, 0⟩
  simp only [get_expense_totals] at *
  refine ⟨by simpa using h1, by simpa using h2, by simpa using h3, ?_⟩
  rw [h1, h2, h3, sumAmounts_split rs]
  ring

/-! ### Rounding lemmas -/

lemma roundHalfEven_close (q : ℚ) : |(roundHalfEven q : ℚ) - q| ≤ 1/2 := by
  have hfl : (⌊q⌋ : ℚ) ≤ q := Int.floor_le q
  have hfu : q < (⌊q⌋ : ℚ) + 1 := Int.lt_floor_add_one q
  simp only [roundHalfEven]
  split
  · rename_i h
    rw [abs_sub_comm, abs_of_nonneg (by linarith)]
    linarith
  · rename_i h
    push_neg at h
    split
    · rename_i h2
      push_cast
      rw [abs_of_nonneg (by linarith)]
      linarith
    · rename_i h2
      push_neg at h2
      have hq : q - (⌊q⌋ : ℚ) = 1/2 := le_antisymm h2 h
      split
      · rw [abs_sub_comm, abs_of_nonneg (by linarith)]
        linarith
      · push_cast
        rw [abs_of_nonneg (by linarith)]
        linarith

lemma roundHalfEven_eq_of_close (q : ℚ) (n : ℤ) (h : |q - (n : ℚ)| < 1/2) :
    roundHalfEven q = n := by
  rw [abs_lt] at h
  obtain ⟨h1, h2⟩ := h
  by_cases hle : (n : ℚ) ≤ q
  · have hfl : ⌊q⌋ = n := by
      rw [Int.floor_eq_iff]
      constructor
      · exact_mod_cast hle
      · push_cast; linarith
    simp only [roundHalfEven, hfl]
    rw [if_pos (by linarith)]
  · push_neg at hle
    have hfl : ⌊q⌋ = n - 1 := by
      rw [Int.floor_eq_iff]
      constructor
      · push_cast; linarith
      · push_cast; linarith
    simp only [roundHalfEven, hfl]
    rw [if_neg (by push_cast; linarith), if_pos (by push_cast; linarith)]
    omega

lemma round2_close (q : ℚ) : |round2 q - q| ≤ 1/200 := by
  have h := roundHalfEven_close (q * 100)
  have e : round2 q - q = ((roundHalfEven (q * 100) : ℚ) - q * 100) / 100 := by
    simp only [round2]; ring
  rw [e, abs_div, show |(100 : ℚ)| = 100 by norm_num]
  linarith

lemma round2_eq_of_close (q : ℚ) (n : ℤ) (h : |q * 100 - (n : ℚ)| < 1/2) :
    round2 q = (n : ℚ) / 100 := by
  rw [round2, roundHalfEven_eq_of_close (q * 100) n h]

lemma round2_zero : round2 0 = 0 := by
  rw [round2_eq_of_close 0 0 (by norm_num)]
  norm_num

/-! ### Generic loop lemmas -/

/-- A loop whose body starts with a guarded `continue` is a fold over the
filtered list. -/
lemma foldl_guard {α β : Type} (p : α → Bool) (f : β → α → β) :
    ∀ (l : List α) (a : β),
      l.foldl (fun acc d => if p d then f acc d else acc) a
        = (l.filter p).foldl f a := by
  intro l
  induction l with
  | nil => intro a; simp
  | cons x xs ih =>
    intro a
    rw [List.foldl_cons, List.filter_cons]
    cases hx : p x with
    | true => simp only [hx, if_true, List.foldl_cons]; exact ih _
    | false => simp only [hx, Bool.false_eq_true, if_false]; exact ih _

lemma foldl_congr_fun {α β : Type} (f g : β → α → β) (l : List α) (a : β)
    (h : ∀ b d, f b d = g b d) : l.foldl f a = l.foldl g a := by
  induction l generalizing a with
  | nil => rfl
  | cons x xs ih => rw [List.foldl_cons, List.foldl_cons, h, ih]

lemma sum_map_sub_le {α : Type} (l : List α) (f g : α → ℚ) (c : ℚ)
    (h : ∀ x ∈ l, |f x - g x| ≤ c) :
    |(l.map f).sum - (l.map g).sum| ≤ l.length * c := by
  induction l with
  | nil => simp
  | cons x xs ih =>
    have hx := h x (by simp)
    have hxs := ih (fun y hy => h y (by simp [hy]))
    simp only [List.map_cons, List.sum_cons, List.length_cons]
    have : f x + (xs.map f).sum - (g x + (xs.map g).sum)
        = (f x - g x) + ((xs.map f).sum - (xs.map g).sum) := by ring
    rw [this]
    calc |(f x - g x) + ((xs.map f).sum - (xs.map g).sum)|
        ≤ |f x - g x| + |(xs.map f).sum - (xs.map g).sum| := abs_add _ _
      _ ≤ c + xs.length * c := by linarith
      _ = ((xs.length + 1 : ℕ) : ℚ) * c := by push_cast; ring

lemma sum_map_mul_const {α : Type} (l : List α) (f : α → ℚ) (c : ℚ) :
    (l.map fun x => f x * c).sum = (l.map f).sum * c := by
  induction l with
  | nil => simp
  | cons x xs ih => simp [ih]; ring

/-! ### `POST /ai/category-summary` (`category_summary`) -/

/-- The running `{'total': ..., 'count': ...}` accumulator dict value, also
used by the monthly trend. -/
structure BucketAcc where
  total : ℚ
  count : ℕ
deriving DecidableEq

/-- `if type and expense.get('type') != type: continue` — the record is kept
when the filter is absent or falsy (`None` or the empty string), or when the
record's `type` equals it. -/
def keepType (tf : Option String) (d : ExpenseDoc) : Bool :=
  match tf with
  | none => true
  | some t => if t = "" then true else d.type == some t

/-- Upsert into an insertion-ordered dict: initialise the key with a zero
bucket if missing, then add `a` to its total and 1 to its count. -/
def bumpBucket (m : List (String × BucketAcc)) (c : String) (a : ℚ) :
    List (String × BucketAcc) :=
  match m with
  | [] => [(c, ⟨a, 1⟩)]
  | (k, v) :: rest =>
    if k = c then (k, ⟨v.total + a, v.count + 1⟩) :: rest
    else (k, v) :: bumpBucket rest c a

/-- One kept iteration of the `category_summary` loop: bump the category
bucket and the running grand total. -/
def summaryStep (acc : List (String × BucketAcc) × ℚ) (d : ExpenseDoc) :
    List (String × BucketAcc) × ℚ :=
  (bumpBucket acc.1 (catKey d) (getAmount d), acc.2 + getAmount d)

/-- A category's final `{total, count, percentage}` entry. -/
structure CatOut where
  total : ℚ
  count : ℕ
  percentage : ℚ
deriving DecidableEq

structure SummaryOut where
  totalSpent : ℚ
  categories : List (String × CatOut)
deriving DecidableEq

/-- The aggregation in `category_summary`: the accumulation loop followed by
the percentage loop (`round(percentage, 2)` applied to the guarded value). -/
def category_summary (tf : Option String) (rs : List ExpenseDoc) : SummaryOut :=
  let p := rs.foldl
    (fun acc d => if keepType tf d then summaryStep acc d else acc) ([], 0)
  { totalSpent := round2 p.2
    categories := p.1.map fun kv =>
      (kv.1, ⟨kv.2.total, kv.2.count,
              round2 (if 0 < p.2 then kv.2.total / p.2 * 100 else 0)⟩) }

/-- The grand total accumulated by the loop: the sum of the kept records'
amounts. -/
def grandTotal (tf : Option String) (rs : List ExpenseDoc) : ℚ :=
  sumAmounts (rs.filter (keepType tf))

lemma summary_foldl_snd (ds : List ExpenseDoc)
    (a : List (String × BucketAcc) × ℚ) :
    (ds.foldl summaryStep a).2 = a.2 + sumAmounts ds := by
  induction ds generalizing a with
  | nil => simp [sumAmounts]
  | cons d ds ih =>
    rw [List.foldl_cons, ih]
    simp [summaryStep, sumAmounts]
    ring

/-- The `category_summary` accumulation as a fold over the kept records. -/
lemma category_summary_eq_filter (tf : Option String) (rs : List ExpenseDoc) :
    rs.foldl (fun acc d => if keepType tf d then summaryStep acc d else acc)
        (([] : List (String × BucketAcc)), (0 : ℚ))
      = (rs.filter (keepType tf)).foldl summaryStep ([], 0) :=
  foldl_guard (keepType tf) summaryStep rs ([], 0)

lemma grandTotal_eq (tf : Option String) (rs : List ExpenseDoc) :
    (rs.foldl (fun acc d => if keepType tf d then summaryStep acc d else acc)
        (([] : List (String × BucketAcc)), (0 : ℚ))).2 = grandTotal tf rs := by
  rw [category_summary_eq_filter, summary_foldl_snd]
  simp [grandTotal]

lemma bumpBucket_total_sum (m : List (String × BucketAcc)) (c : String) (a : ℚ) :
    ((bumpBucket m c a).map fun kv => kv.2.total).sum
      = ((m.map fun kv => kv.2.total).sum) + a := by
  induction m with
  | nil => simp [bumpBucket]
  | cons kv rest ih =>
    obtain ⟨k, v⟩ := kv
    by_cases h : k = c
    · simp [bumpBucket, h]; ring
    · simp [bumpBucket, h, ih]; ring

lemma bumpBucket_count_sum (m : List (String × BucketAcc)) (c : String) (a : ℚ) :
    ((bumpBucket m c a).map fun kv => kv.2.count).sum
      = ((m.map fun kv => kv.2.count).sum) + 1 := by
  induction m with
  | nil => simp [bumpBucket]
  | cons kv rest ih =>
    obtain ⟨k, v⟩ := kv
    by_cases h : k = c
    · simp [bumpBucket, h]; ring
    · simp [bumpBucket, h, ih]; ring

lemma bumpBucket_keys (m : List (String × BucketAcc)) (c : String) (a : ℚ)
    (kv : String × BucketAcc) (h : kv ∈ bumpBucket m c a) :
    kv.1 = c ∨ kv ∈ m := by
  induction m with
  | nil =>
    simp [bumpBucket] at h
    left; rw [h]
  | cons kv0 rest ih =>
    obtain ⟨k, v⟩ := kv0
    by_cases hk : k = c
    · simp [bumpBucket, hk] at h
      rcases h with h | h
      · left; rw [h]
      · right; simp [h]
    · simp [bumpBucket, hk] at h
      rcases h with h | h
      · right; simp [h]
      · rcases ih h with h' | h'
        · left; exact h'
        · right; simp [h']

lemma bumpBucket_key_mem (m : List (String × BucketAcc)) (c : String) (a : ℚ) :
    c ∈ (bumpBucket m c a).map Prod.fst := by
  induction m with
  | nil => simp [bumpBucket]
  | cons kv0 rest ih =>
    obtain ⟨k, v⟩ := kv0
    by_cases hk : k = c
    · simp [bumpBucket, hk]
    · simp [bumpBucket, hk]
      right; simpa using ih

lemma bumpBucket_keys_mono (m : List (String × BucketAcc)) (c c' : String)
    (a : ℚ) (h : c' ∈ m.map Prod.fst) : c' ∈ (bumpBucket m c a).map Prod.fst := by
  induction m with
  | nil => simp at h
  | cons kv0 rest ih =>
    obtain ⟨k, v⟩ := kv0
    rw [List.map_cons, List.mem_cons] at h
    by_cases hk : k = c
    · subst hk
      have e : bumpBucket ((k, v) :: rest) k a
          = (k, ⟨v.total + a, v.count + 1⟩) :: rest := by simp [bumpBucket]
      rw [e, List.map_cons, List.mem_cons]
      exact h
    · have e : bumpBucket ((k, v) :: rest) c a = (k, v) :: bumpBucket rest c a := by
        simp [bumpBucket, hk]
      rw [e, List.map_cons, List.mem_cons]
      rcases h with h | h
      · left; exact h
      · right; exact ih h

lemma summary_foldl_totals_sum (ds : List ExpenseDoc)
    (a : List (String × BucketAcc) × ℚ) :
    (((ds.foldl summaryStep a).1.map fun kv => kv.2.total).sum)
      = ((a.1.map fun kv => kv.2.total).sum) + sumAmounts ds := by
  induction ds generalizing a with
  | nil => simp [sumAmounts]
  | cons d ds ih =>
    rw [List.foldl_cons, ih]
    simp [summaryStep, bumpBucket_total_sum, sumAmounts]
    ring

lemma summary_foldl_counts_sum (ds : List ExpenseDoc)
    (a : List (String × BucketAcc) × ℚ) :
    (((ds.foldl summaryStep a).1.map fun kv => kv.2.count).sum)
      = ((a.1.map fun kv => kv.2.count).sum) + ds.length := by
  induction ds generalizing a with
  | nil => simp
  | cons d ds ih =>
    rw [List.foldl_cons, ih]
    simp [summaryStep, bumpBucket_count_sum]
    ring

lemma summary_foldl_keys_mono (ds : List ExpenseDoc)
    (a : List (String × BucketAcc) × ℚ) (c : String)
    (h : c ∈ a.1.map Prod.fst) :
    c ∈ (ds.foldl summaryStep a).1.map Prod.fst := by
  induction ds generalizing a with
  | nil => exact h
  | cons d ds ih =>
    rw [List.foldl_cons]
    exact ih _ (bumpBucket_keys_mono _ _ _ _ h)

lemma summary_foldl_key_mem (ds : List ExpenseDoc)
    (a : List (String × BucketAcc) × ℚ) (d : ExpenseDoc) (hd : d ∈ ds) :
    catKey d ∈ (ds.foldl summaryStep a).1.map Prod.fst := by
  induction ds generalizing a with
  | nil => cases hd
  | cons e ds ih =>
    rw [List.mem_cons] at hd
    rw [List.foldl_cons]
    rcases hd with hd | hd
    · subst hd
      exact summary_foldl_keys_mono _ _ _ (bumpBucket_key_mem _ _ _)
    · exact ih _ hd

/-- The per-category totals in the output sum to the grand total the
percentages are computed from. -/
lemma category_summary_totals_sum (tf : Option String) (rs : List ExpenseDoc) :
    (((category_summary tf rs).categories.map fun kv => kv.2.total).sum)
      = grandTotal tf rs := by
  have h := summary_foldl_totals_sum (rs.filter (keepType tf)) ([], 0)
  simp only [List.map_nil, List.sum_nil, zero_add] at h
  simp only [category_summary, category_summary_eq_filter, List.map_map,
    Function.comp_def]
  rw [h]
  simp [grandTotal]

/-- C2: every output percentage is `round2 (categoryTotal / grandTotal * 100)`
when the grand total is positive and `0` for every category when the grand
total is zero, and the outer `totalSpent` is `round2` of the grand total. -/
theorem category_summary_percentage_spec (tf : Option String)
    (rs : List ExpenseDoc) :
    (category_summary tf rs).totalSpent = round2 (grandTotal tf rs) ∧
    ∀ kv ∈ (category_summary tf rs).categories,
      (0 < grandTotal tf rs →
        kv.2.percentage = round2 (kv.2.total / grandTotal tf rs * 100)) ∧
      (grandTotal tf rs = 0 → kv.2.percentage = 0) := by
  constructor
  · simp only [category_summary]
    rw [grandTotal_eq]
  · intro kv hkv
    simp only [category_summary] at hkv
    rw [List.mem_map] at hkv
    obtain ⟨kv0, _, hEq⟩ := hkv
    constructor
    · intro hpos
      rw [← hEq]
      simp only []
      rw [grandTotal_eq, if_pos hpos]
    · intro hzero
      rw [← hEq]
      simp only []
      rw [grandTotal_eq, hzero]
      norm_num [round2_zero]

/-- Concrete record set for exercising `category_summary`. -/
def w2rs : List ExpenseDoc :=
  [{ item := some "Cafe", amount := some 50, type := some "personal",
     category := some "food", date := some "2025-02-01" }]

theorem category_summary_percentage_spec_witness :
    (0 < grandTotal none w2rs) ∧
    (category_summary none w2rs).totalSpent = round2 (grandTotal none w2rs) ∧
    (("food", (⟨50, 1, round2 ((50 : ℚ) / 50 * 100)⟩ : CatOut))
        ∈ (category_summary none w2rs).categories) ∧
    (⟨50, 1, round2 ((50 : ℚ) / 50 * 100)⟩ : CatOut).percentage
      = round2 ((⟨50, 1, round2 ((50 : ℚ) / 50 * 100)⟩ : CatOut).total
          / grandTotal none w2rs * 100) := by
  have hG : grandTotal none w2rs = 50 := by
    simp [grandTotal, w2rs, keepType, sumAmounts, getAmount]
  have hmem : ("food", (⟨50, 1, round2 ((50 : ℚ) / 50 * 100)⟩ : CatOut))
      ∈ (category_summary none w2rs).categories := by
    simp [category_summary, w2rs, keepType, summaryStep, bumpBucket, catKey,
      getAmount]
  refine ⟨by rw [hG]; norm_num,
    (category_summary_percentage_spec none w2rs).1, hmem, ?_⟩
  have h := ((category_summary_percentage_spec none w2rs).2 _ hmem).1
    (by rw [hG]; norm_num)
  simpa [hG] using h

lemma category_summary_counts_sum (tf : Option String) (rs : List ExpenseDoc) :
    (((category_summary tf rs).categories.map fun kv => kv.2.count).sum)
      = (rs.filter (keepType tf)).length := by
  have h := summary_foldl_counts_sum (rs.filter (keepType tf)) ([], 0)
  simp only [List.map_nil, List.sum_nil, zero_add] at h
  simp only [category_summary, category_summary_eq_filter, List.map_map,
    Function.comp_def]
  rw [h]

lemma category_summary_percentage_eq (tf : Option String) (rs : List ExpenseDoc)
    (kv : String × CatOut) (h : kv ∈ (category_summary tf rs).categories) :
    kv.2.percentage
      = round2 (if 0 < grandTotal tf rs
          then kv.2.total / grandTotal tf rs * 100 else 0) := by
  simp only [category_summary] at h
  rw [List.mem_map] at h
  obtain ⟨kv0, _, hEq⟩ := h
  rw [← hEq]
  simp only []
  rw [grandTotal_eq]

/-- C9: the per-category totals sum to the grand total, `totalSpent` rounds
the grand total, the per-category counts sum to the number of kept records,
and a record without a `category` field is bucketed under `uncategorized`. -/
theorem category_summary_internal_spec (tf : Option String)
    (rs : List ExpenseDoc) :
    (((category_summary tf rs).categories.map fun kv => kv.2.total).sum
        = grandTotal tf rs) ∧
    ((category_summary tf rs).totalSpent = round2 (grandTotal tf rs)) ∧
    (((category_summary tf rs).categories.map fun kv => kv.2.count).sum
        = (rs.filter (keepType tf)).length) ∧
    (∀ d ∈ rs, keepType tf d = true → d.category = none →
      "uncategorized" ∈ (category_summary tf rs).categories.map Prod.fst) := by
  refine ⟨category_summary_totals_sum tf rs, ?_,
    category_summary_counts_sum tf rs, ?_⟩
  · simp only [category_summary]
    rw [grandTotal_eq]
  · intro d hd hkeep hcat
    have hd' : d ∈ rs.filter (keepType tf) := List.mem_filter.2 ⟨hd, hkeep⟩
    have h := summary_foldl_key_mem (rs.filter (keepType tf)) ([], 0) d hd'
    have hu : catKey d = "uncategorized" := by simp [catKey, hcat]
    rw [hu] at h
    simp only [category_summary, category_summary_eq_filter, List.map_map,
      Function.comp_def]
    simpa using h

/-- Concrete record lacking a `category` field. -/
def w9d : ExpenseDoc :=
  { amount := some 20, type := some "personal", date := some "2025-04-02" }

theorem category_summary_internal_spec_witness :
    "uncategorized" ∈ (category_summary none [w9d]).categories.map Prod.fst :=
  (category_summary_internal_spec none [w9d]).2.2.2 w9d (by simp) rfl rfl

/-- C7 (amended): with a positive grand total the rounded percentages sum to
100 within half an ulp (`1/200`) per category; with a zero grand total they
sum to 0.  The fixed `0.01` tolerance of the original claim fails once more
than two categories each round upward (see the counterexample). -/
theorem category_summary_pct_sum_bound (tf : Option String)
    (rs : List ExpenseDoc) (hnn : ∀ d ∈ rs, 0 ≤ getAmount d) :
    (0 < grandTotal tf rs →
      |(((category_summary tf rs).categories.map
          fun kv => kv.2.percentage).sum) - 100|
        ≤ ((category_summary tf rs).categories.length : ℚ) * (1/200)) ∧
    (grandTotal tf rs = 0 →
      (((category_summary tf rs).categories.map
          fun kv => kv.2.percentage).sum) = 0) := by
  constructor
  · intro hG
    have htot := category_summary_totals_sum tf rs
    have hpt : ∀ kv ∈ (category_summary tf rs).categories,
        |(fun kv : String × CatOut => kv.2.percentage) kv
          - (fun kv : String × CatOut =>
              kv.2.total / grandTotal tf rs * 100) kv| ≤ 1/200 := by
      intro kv hkv
      simp only []
      rw [category_summary_percentage_eq tf rs kv hkv, if_pos hG]
      exact round2_close _
    have hb := sum_map_sub_le (category_summary tf rs).categories
      (fun kv => kv.2.percentage)
      (fun kv => kv.2.total / grandTotal tf rs * 100) (1/200) hpt
    have hg : (((category_summary tf rs).categories.map
        fun kv => kv.2.total / grandTotal tf rs * 100).sum) = 100 := by
      have e1 : ((category_summary tf rs).categories.map
          fun kv => kv.2.total / grandTotal tf rs * 100)
          = ((category_summary tf rs).categories.map
            fun kv => kv.2.total * (100 / grandTotal tf rs)) := by
        apply List.map_congr_left
        intro kv _
        ring
      rw [e1, sum_map_mul_const, htot]
      field_simp
    rw [hg] at hb
    exact hb
  · intro hG
    apply List.sum_eq_zero
    intro x hx
    rw [List.mem_map] at hx
    obtain ⟨kv, hkv, hEq⟩ := hx
    rw [← hEq, category_summary_percentage_eq tf rs kv hkv,
      if_neg (by rw [hG]; exact lt_irrefl 0)]
    exact round2_zero

theorem category_summary_pct_sum_bound_witness :
    (0 < grandTotal none w2rs) ∧
    |(((category_summary none w2rs).categories.map
        fun kv => kv.2.percentage).sum) - 100|
      ≤ ((category_summary none w2rs).categories.length : ℚ) * (1/200) := by
  have hG : grandTotal none w2rs = 50 := by
    simp [grandTotal, w2rs, keepType, sumAmounts, getAmount]
  have hG' : 0 < grandTotal none w2rs := by rw [hG]; norm_num
  exact ⟨hG', (category_summary_pct_sum_bound none w2rs
    (by intro d hd; simp [w2rs] at hd; simp [hd, getAmount])).1 hG'⟩

/-- Five records realising percentages `20.0051` (four times) and `19.9796`:
each rounds upward, so the rounded percentages sum to `100.02`. -/
def c7rs : List ExpenseDoc :=
  [ { amount := some 200051, type := some "personal", category := some "c1" },
    { amount := some 200051, type := some "personal", category := some "c2" },
    { amount := some 200051, type := some "personal", category := some "c3" },
    { amount := some 200051, type := some "personal", category := some "c4" },
    { amount := some 199796, type := some "personal", category := some "c5" } ]

theorem category_summary_pct_sum_cex :
    (c7rs.all fun d => decide ((0 : ℚ) ≤ getAmount d)) = true ∧
    (((category_summary none c7rs).categories.map
        fun kv => kv.2.percentage).sum) = 10002/100 ∧
    ¬ ((((category_summary none c7rs).categories.map
        fun kv => kv.2.percentage).sum) ≤ 10001/100) := by
  have e1 : round2 ((200051 : ℚ) / 10000) = 2001/100 := by
    rw [round2_eq_of_close _ 2001 (by rw [abs_lt]; constructor <;> norm_num)]
    norm_num
  have e5 : round2 ((49949 : ℚ) / 2500) = 1998/100 := by
    rw [round2_eq_of_close _ 1998 (by rw [abs_lt]; constructor <;> norm_num)]
    norm_num
  have n12 : ("c1" : String) ≠ "c2" := by decide
  have n13 : ("c1" : String) ≠ "c3" := by decide
  have n14 : ("c1" : String) ≠ "c4" := by decide
  have n15 : ("c1" : String) ≠ "c5" := by decide
  have n23 : ("c2" : String) ≠ "c3" := by decide
  have n24 : ("c2" : String) ≠ "c4" := by decide
  have n25 : ("c2" : String) ≠ "c5" := by decide
  have n34 : ("c3" : String) ≠ "c4" := by decide
  have n35 : ("c3" : String) ≠ "c5" := by decide
  have n45 : ("c4" : String) ≠ "c5" := by decide
  refine ⟨by norm_num [c7rs, getAmount], ?_, ?_⟩
  · norm_num [category_summary, c7rs, keepType, summaryStep, bumpBucket,
      catKey, getAmount, e1, e5, Function.comp_def,
      n12, n13, n14, n15, n23, n24, n25, n34, n35, n45]
  · norm_num [category_summary, c7rs, keepType, summaryStep, bumpBucket,
      catKey, getAmount, e1, e5, Function.comp_def,
      n12, n13, n14, n15, n23, n24, n25, n34, n35, n45]

/-! ### Order lemmas for the code-point lexicographic comparison -/

lemma listLeB_trans : ∀ (xs ys zs : List Char),
    listLeB xs ys = true → listLeB ys zs = true → listLeB xs zs = true := by
  intro xs
  induction xs with
  | nil => intro ys zs _ _; simp [listLeB]
  | cons x xs ih =>
    intro ys zs h1 h2
    cases ys with
    | nil => simp [listLeB] at h1
    | cons y ys =>
      cases zs with
      | nil => simp [listLeB] at h2
      | cons z zs =>
        simp only [listLeB] at h1 h2 ⊢
        by_cases hxy : x.toNat < y.toNat
        · by_cases hyz : y.toNat < z.toNat
          · simp [show x.toNat < z.toNat by omega]
          · by_cases hzy : z.toNat < y.toNat
            · rw [if_neg hyz, if_pos hzy] at h2
              exact absurd h2 (by simp)
            · simp [show x.toNat < z.toNat by omega]
        · by_cases hyx : y.toNat < x.toNat
          · rw [if_neg hxy, if_pos hyx] at h1
            exact absurd h1 (by simp)
          · by_cases hyz : y.toNat < z.toNat
            · simp [show x.toNat < z.toNat by omega]
            · by_cases hzy : z.toNat < y.toNat
              · rw [if_neg hyz, if_pos hzy] at h2
                exact absurd h2 (by simp)
              · rw [if_neg hxy, if_neg hyx] at h1
                rw [if_neg hyz, if_neg hzy] at h2
                rw [if_neg (show ¬ x.toNat < z.toNat by omega),
                  if_neg (show ¬ z.toNat < x.toNat by omega)]
                exact ih ys zs h1 h2

lemma listLeB_total : ∀ (xs ys : List Char),
    (listLeB xs ys || listLeB ys xs) = true := by
  intro xs
  induction xs with
  | nil => intro ys; simp [listLeB]
  | cons x xs ih =>
    intro ys
    cases ys with
    | nil => simp [listLeB]
    | cons y ys =>
      simp only [listLeB]
      by_cases hxy : x.toNat < y.toNat
      · simp [hxy]
      · by_cases hyx : y.toNat < x.toNat
        · simp [hxy, hyx]
        · simp [hxy, hyx, ih ys]

lemma listLeB_eq_not_lt : ∀ (xs ys : List Char),
    listLeB xs ys = !listLtB ys xs := by
  intro xs
  induction xs with
  | nil => intro ys; cases ys <;> simp [listLeB, listLtB]
  | cons x xs ih =>
    intro ys
    cases ys with
    | nil => simp [listLeB, listLtB]
    | cons y ys =>
      simp only [listLeB, listLtB]
      by_cases hxy : x.toNat < y.toNat
      · simp [hxy, show ¬ y.toNat < x.toNat by omega]
      · by_cases hyx : y.toNat < x.toNat
        · simp [hxy, hyx]
        · simp [hxy, hyx, ih ys]

lemma strLeB_eq_not_lt (a b : String) : strLeB a b = !strLtB b a :=
  listLeB_eq_not_lt a.data b.data

/-! ### `POST /ai/monthly-trend` (`monthly_trend`) -/

/-- One iteration of the monthly-trend loop: skip on the type filter, skip a
missing/empty `date`, otherwise bump the `date[:7]` bucket. -/
def monthlyStep (tf : Option String) (acc : List (String × BucketAcc))
    (d : ExpenseDoc) : List (String × BucketAcc) :=
  if keepType tf d then
    if d.date.getD "" = "" then acc
    else bumpBucket acc (take7 (d.date.getD "")) (getAmount d)
  else acc

/-- The aggregation in `monthly_trend`: the accumulation loop followed by
`sorted(monthly_data.items())`.  Python sorts the `(key, value)` pairs
lexicographically; as dict keys are distinct this is a stable sort by key. -/
def monthly_trend (tf : Option String) (rs : List ExpenseDoc) :
    List (String × BucketAcc) :=
  (rs.foldl (monthlyStep tf) []).mergeSort fun a b => strLeB a.1 b.1

lemma monthlyStep_skip (tf : Option String) (acc : List (String × BucketAcc))
    (d : ExpenseDoc) (h : d.date = none) : monthlyStep tf acc d = acc := by
  simp [monthlyStep, h]

lemma monthly_foldl_mem (tf : Option String) :
    ∀ (rs : List ExpenseDoc) (acc : List (String × BucketAcc))
      (kv : String × BucketAcc), kv ∈ rs.foldl (monthlyStep tf) acc →
      kv ∈ acc ∨ ∃ d ∈ rs, keepType tf d = true ∧ d.date.getD "" ≠ "" ∧
        kv.1 = take7 (d.date.getD "") := by
  intro rs
  induction rs with
  | nil => intro acc kv h; left; exact h
  | cons e rs ih =>
    intro acc kv h
    rw [List.foldl_cons] at h
    rcases ih _ kv h with h' | ⟨d, hd, hk, hne, he⟩
    · by_cases hkeep : keepType tf e = true
      · by_cases hdate : e.date.getD "" = ""
        · rw [monthlyStep, if_pos hkeep, if_pos hdate] at h'
          left; exact h'
        · rw [monthlyStep, if_pos hkeep, if_neg hdate] at h'
          rcases bumpBucket_keys acc _ _ kv h' with h1 | h1
          · right; exact ⟨e, by simp, hkeep, hdate, h1⟩
          · left; exact h1
      · rw [monthlyStep, if_neg hkeep] at h'
        left; exact h'
    · right; exact ⟨d, by simp [hd], hk, hne, he⟩

/-- C4: `monthly_trend` ignores records lacking a `date`, every output key is
the 7-character month slice of some retained record's date string, and the
output is sorted ascending by key in code-point lexicographic order. -/
theorem monthly_trend_spec (tf : Option String) :
    (∀ (rs₁ rs₂ : List ExpenseDoc) (d : ExpenseDoc), d.date = none →
      monthly_trend tf (rs₁ ++ d :: rs₂) = monthly_trend tf (rs₁ ++ rs₂)) ∧
    (∀ (rs : List ExpenseDoc) (kv : String × BucketAcc),
      kv ∈ monthly_trend tf rs →
      ∃ d ∈ rs, keepType tf d = true ∧ d.date.getD "" ≠ "" ∧
        kv.1 = take7 (d.date.getD "")) ∧
    (∀ rs : List ExpenseDoc,
      (monthly_trend tf rs).Pairwise fun a b => strLeB a.1 b.1 = true) := by
  refine ⟨?_, ?_, ?_⟩
  · intro rs₁ rs₂ d hd
    simp only [monthly_trend, List.foldl_append, List.foldl_cons,
      monthlyStep_skip tf _ d hd]
  · intro rs kv h
    rw [monthly_trend, List.mem_mergeSort] at h
    rcases monthly_foldl_mem tf rs [] kv h with h' | h'
    · cases h'
    · exact h'
  · intro rs
    rw [monthly_trend]
    exact @List.sorted_mergeSort (String × BucketAcc)
      (fun a b => strLeB a.1 b.1)
      (fun a b c hab hbc => listLeB_trans _ _ _ hab hbc)
      (fun a b => listLeB_total _ _)
      (rs.foldl (monthlyStep tf) [])

def w4a : ExpenseDoc := { amount := some 5, type := some "personal" }

def w4b : ExpenseDoc :=
  { amount := some (1505/10), type := some "personal",
    category := some "transport", date := some "2025-03-01" }

theorem monthly_trend_spec_witness :
    (w4a.date = none ∧ monthly_trend none [w4a] = monthly_trend none []) ∧
    ((("2025-03", (⟨1505/10, 1⟩ : BucketAcc)) ∈ monthly_trend none [w4b]) ∧
      ∃ d ∈ [w4b], keepType none d = true ∧ d.date.getD "" ≠ "" ∧
        ("2025-03" : String) = take7 (d.date.getD "")) ∧
    (monthly_trend none [w4b]).Pairwise (fun a b => strLeB a.1 b.1 = true) := by
  have hmem : ("2025-03", (⟨1505/10, 1⟩ : BucketAcc)) ∈ monthly_trend none [w4b] := by
    have h7 : take7 "2025-03-01" = "2025-03" := by decide
    simp [monthly_trend, monthlyStep, w4b, keepType, bumpBucket, getAmount,
      h7, List.mergeSort]
  refine ⟨⟨rfl, by simpa using (monthly_trend_spec none).1 [] [] w4a rfl⟩,
    ⟨hmem, ?_⟩, (monthly_trend_spec none).2.2 [w4b]⟩
  simpa using (monthly_trend_spec none).2.1 [w4b] _ hmem

/-! ### `POST /ai/merchant-spend` (`merchant_spend`) -/

/-- The `MerchantQuery` request body (the fields the computation reads;
`userId` only scopes the store fetch and `companyId` is unused). -/
structure SpendQuery where
  merchant : String
  startDate : Option String := none
  endDate : Option String := none
deriving DecidableEq

/-- Python truthiness of an `Optional[str]`: `None` and `""` are falsy. -/
def truthy (o : Option String) : Bool :=
  match o with
  | none => false
  | some s => !(s = "")

/-- The Firestore query `ref.where('item', '==', merchant)`: an exact match
of the raw stored `item` against the already-lowercased query merchant. -/
def itemMatches (m : String) (d : ExpenseDoc) : Bool := d.item == some m

/-- `if query.startDate and query.endDate: ...` — the in-loop date filter;
a record survives unless both bounds are truthy and its date falls outside
`[startDate, endDate]` under Python string comparison. -/
def dateInRange (q : SpendQuery) (d : ExpenseDoc) : Bool :=
  if truthy q.startDate && truthy q.endDate then
    !(strLtB (d.date.getD "") (q.startDate.getD "")
      || strLtB (q.endDate.getD "") (d.date.getD ""))
  else true

/-- The records returned by the Firestore `where` filter, in order. -/
def matchedDocs (q : SpendQuery) (rs : List ExpenseDoc) : List ExpenseDoc :=
  rs.filter (itemMatches (lowerStr q.merchant))

/-- The records the loop actually accumulates: matched and not skipped by
the date filter. -/
def keptDocs (q : SpendQuery) (rs : List ExpenseDoc) : List ExpenseDoc :=
  (matchedDocs q rs).filter (dateInRange q)

/-- One entry of the response's `expenses` list. -/
structure SpendEntry where
  date : Option String
  amount : ℚ
  category : String
  note : String
deriving DecidableEq

def mkSpendEntry (d : ExpenseDoc) : SpendEntry :=
  ⟨d.date, getAmount d, catKey d, d.note.getD ""⟩

/-- `categories[category] = categories.get(category, 0) + amount`. -/
def bumpAmt (m : List (String × ℚ)) (c : String) (a : ℚ) : List (String × ℚ) :=
  match m with
  | [] => [(c, a)]
  | (k, v) :: rest =>
    if k = c then (k, v + a) :: rest else (k, v) :: bumpAmt rest c a

/-- The loop accumulator of `merchant_spend`. -/
structure SpendAcc where
  total : ℚ
  count : ℕ
  cats : List (String × ℚ)
  entries : List SpendEntry

/-- One kept iteration of the `merchant_spend` loop. -/
def spendStep (acc : SpendAcc) (d : ExpenseDoc) : SpendAcc :=
  ⟨acc.total + getAmount d, acc.count + 1,
   bumpAmt acc.cats (catKey d) (getAmount d),
   acc.entries ++ [mkSpendEntry d]⟩

structure SpendReport where
  merchant : String
  totalSpent : ℚ
  transactionCount : ℕ
  byCategory : List (String × ℚ)
  expenses : List SpendEntry
deriving DecidableEq

/-- The computation in `merchant_spend`: lowercase the query merchant, ask
the store for exact `item` matches, loop with the in-loop date filter, and
shape the report. -/
def merchant_spend (q : SpendQuery) (rs : List ExpenseDoc) : SpendReport :=
  let acc := (matchedDocs q rs).foldl
    (fun acc d => if dateInRange q d then spendStep acc d else acc)
    ⟨0, 0, [], []⟩
  { merchant := q.merchant
    totalSpent := round2 acc.total
    transactionCount := acc.count
    byCategory := acc.cats
    expenses := acc.entries }

lemma bumpAmt_sum (m : List (String × ℚ)) (c : String) (a : ℚ) :
    ((bumpAmt m c a).map Prod.snd).sum = ((m.map Prod.snd).sum) + a := by
  induction m with
  | nil => simp [bumpAmt]
  | cons kv rest ih =>
    obtain ⟨k, v⟩ := kv
    by_cases h : k = c
    · simp [bumpAmt, h]; ring
    · simp [bumpAmt, h, ih]; ring

lemma spend_foldl_spec (ds : List ExpenseDoc) (a : SpendAcc) :
    (ds.foldl spendStep a).total = a.total + sumAmounts ds ∧
    (ds.foldl spendStep a).count = a.count + ds.length ∧
    ((ds.foldl spendStep a).cats.map Prod.snd).sum
      = ((a.cats.map Prod.snd).sum) + sumAmounts ds ∧
    (ds.foldl spendStep a).entries = a.entries ++ ds.map mkSpendEntry := by
  induction ds generalizing a with
  | nil => simp [sumAmounts]
  | cons d ds ih =>
    rw [List.foldl_cons]
    obtain ⟨i1, i2, i3, i4⟩ := ih (spendStep a d)
    refine ⟨?_, ?_, ?_, ?_⟩
    · rw [i1]; simp [spendStep, sumAmounts]; ring
    · rw [i2]; simp [spendStep]; ring
    · rw [i3]; simp [spendStep, bumpAmt_sum, sumAmounts]; ring
    · rw [i4]; simp [spendStep]

lemma merchant_spend_foldl (q : SpendQuery) (rs : List ExpenseDoc) :
    (matchedDocs q rs).foldl
        (fun acc d => if dateInRange q d then spendStep acc d else acc)
        ⟨0, 0, [], []⟩
      = (keptDocs q rs).foldl spendStep ⟨0, 0, [], []⟩ :=
  foldl_guard (dateInRange q) spendStep (matchedDocs q rs) ⟨0, 0, [], []⟩

/-- C10: the report is internally consistent — `transactionCount` is the
length of `expenses`, the (unrounded) `byCategory` values sum to the kept
records' amounts, `totalSpent` is that sum rounded to two decimals, and
`expenses` is exactly the kept records, in their original encounter order. -/
theorem merchant_spend_internal_spec (q : SpendQuery) (rs : List ExpenseDoc) :
    (merchant_spend q rs).transactionCount
      = (merchant_spend q rs).expenses.length ∧
    (((merchant_spend q rs).byCategory.map Prod.snd).sum)
      = sumAmounts (keptDocs q rs) ∧
    (merchant_spend q rs).totalSpent = round2 (sumAmounts (keptDocs q rs)) ∧
    (merchant_spend q rs).expenses = (keptDocs q rs).map mkSpendEntry := by
  obtain ⟨h1, h2, h3, h4⟩ := spend_foldl_spec (keptDocs q rs) ⟨0, 0, [], []⟩
  simp only [merchant_spend, merchant_spend_foldl]
  refine ⟨?_, ?_, ?_, ?_⟩
  · rw [h2, h4]; simp
  · rw [h3]; simp
  · rw [h1]; simp
  · rw [h4]; simp

/-- The C3 scenario query: `merchant="fuel"`, no date range. -/
def c3q : SpendQuery := { merchant := "fuel" }

/-- The C3 scenario records. -/
def c3rs : List ExpenseDoc :=
  [ { item := some "Fuel", amount := some (1505/10), date := some "2025-03-01" },
    { item := some "Shell", amount := some 50, date := some "2025-03-02" } ]

lemma c3_matched_empty : matchedDocs c3q c3rs = [] := by
  have h1 : (some "Fuel" == some (lowerStr "fuel")) = false := by decide
  have h2 : (some "Shell" == some (lowerStr "fuel")) = false := by decide
  simp [matchedDocs, c3q, c3rs, itemMatches, h1, h2]

/-- C3 counterexample: with `merchant="fuel"` the record `{item:"Fuel"}` does
NOT match — the store compares the raw `item` against the lowercased query —
so the report is not `transactionCount=1, totalSpent=150.50`. -/
theorem merchant_spend_fuel_cex :
    ¬ ((merchant_spend c3q c3rs).transactionCount = 1 ∧
       (merchant_spend c3q c3rs).totalSpent = 1505/10) := by
  rintro ⟨h1, _⟩
  rw [show (merchant_spend c3q c3rs).transactionCount = 0 by
    simp [merchant_spend, c3_matched_empty]] at h1
  exact absurd h1 (by norm_num)

/-- C3 (amended): on that input the lowercased query `"fuel"` matches neither
raw item (`"Fuel"`, `"Shell"`), so `transactionCount = 0` and
`totalSpent = 0`. -/
theorem merchant_spend_fuel_amended :
    (merchant_spend c3q c3rs).transactionCount = 0 ∧
    (merchant_spend c3q c3rs).totalSpent = 0 := by
  constructor
  · simp [merchant_spend, c3_matched_empty]
  · simp [merchant_spend, c3_matched_empty, round2_zero]

/-- The C5 counterexample query: both bounds present, but `startDate` is the
empty string, which is falsy in Python. -/
def c5q : SpendQuery :=
  { merchant := "fuel", startDate := some "", endDate := some "2020-01-01" }

def c5d : ExpenseDoc :=
  { item := some "fuel", amount := some 10, date := some "2025-06-01" }

/-- C5 counterexample: both `startDate` and `endDate` are supplied and the
record's date is lexically greater than `endDate`, yet the record is retained
and counted — `if query.startDate and query.endDate` treats the supplied
empty-string bound as absent. -/
theorem merchant_spend_daterange_cex :
    c5q.startDate = some "" ∧ c5q.endDate = some "2020-01-01" ∧
    strLeB (c5d.date.getD "") "2020-01-01" = false ∧
    keptDocs c5q [c5d] = [c5d] ∧
    (merchant_spend c5q [c5d]).transactionCount = 1 := by
  have hm : (some "fuel" == some (lowerStr "fuel")) = true := by decide
  have hkept : keptDocs c5q [c5d] = [c5d] := by
    simp [keptDocs, matchedDocs, itemMatches, dateInRange, truthy, c5q, c5d, hm]
  refine ⟨rfl, rfl, by decide, hkept, ?_⟩
  obtain ⟨_, h2, _, _⟩ := spend_foldl_spec (keptDocs c5q [c5d]) ⟨0, 0, [], []⟩
  rw [hkept] at h2
  simp only [merchant_spend, merchant_spend_foldl, hkept]
  simp [spendStep]

/-- C5 (amended): the date-range filter applies exactly when both bounds are
supplied AND non-empty, and then retains exactly the matched records whose
date is lexically between them (inclusive); when either bound is absent —
or supplied as the empty string, which is falsy in Python — no record is
excluded by date. -/
theorem merchant_spend_daterange_spec (q : SpendQuery) (rs : List ExpenseDoc)
    (s e : String) :
    (q.startDate = some s → s ≠ "" → q.endDate = some e → e ≠ "" →
      keptDocs q rs = (matchedDocs q rs).filter fun d =>
        strLeB s (d.date.getD "") && strLeB (d.date.getD "") e) ∧
    (q.startDate = none ∨ q.endDate = none →
      keptDocs q rs = matchedDocs q rs) ∧
    (q.startDate = some "" ∨ q.endDate = some "" →
      keptDocs q rs = matchedDocs q rs) := by
  refine ⟨?_, ?_, ?_⟩
  · intro hs hs' he he'
    have hp : dateInRange q = fun d =>
        strLeB s (d.date.getD "") && strLeB (d.date.getD "") e := by
      funext d
      rw [dateInRange, hs, he]
      rw [if_pos (by simp [truthy, hs', he'])]
      rw [Bool.not_or, strLeB_eq_not_lt, strLeB_eq_not_lt]
      simp [hs, he]
    rw [keptDocs, hp]
  · intro h
    have hp : dateInRange q = fun _ => true := by
      funext d
      rcases h with h | h <;>
        rw [dateInRange, h] <;> simp [truthy]
    rw [keptDocs, hp, List.filter_true]
  · intro h
    have hp : dateInRange q = fun _ => true := by
      funext d
      rcases h with h | h <;>
        rw [dateInRange, h] <;> simp [truthy]
    rw [keptDocs, hp, List.filter_true]

def w5rs : List ExpenseDoc :=
  [ { item := some "shop", amount := some 10, date := some "2025-06-15" },
    { item := some "shop", amount := some 5, date := some "2026-01-01" } ]

def w5q : SpendQuery :=
  { merchant := "shop", startDate := some "2025-01-01",
    endDate := some "2025-12-31" }

def w5q2 : SpendQuery := { merchant := "shop" }

def w5q3 : SpendQuery :=
  { merchant := "shop", startDate := some "", endDate := some "2025-12-31" }

theorem merchant_spend_daterange_spec_witness :
    (keptDocs w5q w5rs = (matchedDocs w5q w5rs).filter fun d =>
      strLeB "2025-01-01" (d.date.getD "")
        && strLeB (d.date.getD "") "2025-12-31") ∧
    keptDocs w5q2 w5rs = matchedDocs w5q2 w5rs ∧
    keptDocs w5q3 w5rs = matchedDocs w5q3 w5rs :=
  ⟨(merchant_spend_daterange_spec w5q w5rs "2025-01-01" "2025-12-31").1
      rfl (by decide) rfl (by decide),
   (merchant_spend_daterange_spec w5q2 w5rs "" "").2.1 (Or.inl rfl),
   (merchant_spend_daterange_spec w5q3 w5rs "" "").2.2 (Or.inl rfl)⟩

/-! ### `POST /merchants/save` and `GET /merchants/lookup` -/

/-- The document written by `save_merchant` (`SERVER_TIMESTAMP` modelled as
an abstract tick passed in by the caller). -/
structure MerchantData where
  normalizedName : String
  defaultCategory : String
  defaultType : String
  userId : String
  createdAt : ℕ
  lastUsed : ℕ
deriving DecidableEq

/-- The `merchants` collection, keyed by document id. -/
def MerchantStore : Type := String → Option MerchantData

def emptyMerchantStore : MerchantStore := fun _ => none

/-- The document id `f"{userId}_{merchant.lower()}"`. -/
def merchantDocId (userId merchant : String) : String :=
  userId ++ "_" ++ lowerStr merchant

/-- `save_merchant`: unconditional `set` of the whole document at the
normalized key. -/
def save_merchant (store : MerchantStore) (userId merchant category ty : String)
    (now : ℕ) : MerchantStore :=
  fun k => if k = merchantDocId userId merchant
    then some ⟨lowerStr merchant, category, ty, userId, now, now⟩
    else store k

inductive LookupResult
  | found (merchant category ty : String)
  | notFound (merchant : String)
deriving DecidableEq

/-- `lookup_merchant`: get the document at the normalized key; a miss is the
`found: false` response, not an error. -/
def lookup_merchant (store : MerchantStore) (userId merchant : String) :
    LookupResult :=
  match store (merchantDocId userId merchant) with
  | some d => .found merchant d.defaultCategory d.defaultType
  | none => .notFound merchant

/-- C6: saving under merchant name `m` and looking up under any `m'` with the
same lowercase form finds the saved category and type (case-insensitive
round-trip). -/
theorem merchant_roundtrip (store : MerchantStore)
    (userId m m' c t : String) (now : ℕ) (h : lowerStr m = lowerStr m') :
    lookup_merchant (save_merchant store userId m c t now) userId m'
      = .found m' c t := by
  have hid : merchantDocId userId m' = merchantDocId userId m := by
    rw [merchantDocId, merchantDocId, h]
  rw [lookup_merchant, save_merchant, hid, if_pos rfl]

theorem merchant_roundtrip_witness :
    lowerStr "HDFC Bank" = lowerStr "hdfc bank" ∧
    lookup_merchant
        (save_merchant emptyMerchantStore "u1" "HDFC Bank" "banking" "business" 0)
        "u1" "hdfc bank"
      = .found "hdfc bank" "banking" "business" :=
  ⟨by decide,
   merchant_roundtrip emptyMerchantStore "u1" "HDFC Bank" "hdfc bank"
     "banking" "business" 0 (by decide)⟩

/-! ### The HTTP response surface -/

/-- A JSON value, as the handlers return them. -/
inductive Jv
  | str (s : String)
  | num (q : ℚ)
  | bool (b : Bool)
  | null
  | arr (xs : List Jv)
  | obj (fields : List (String × Jv))

/-- `type or "all"` in the summary/trend responses. -/
def typeOrAll (tf : Option String) : String :=
  match tf with
  | none => "all"
  | some t => if t = "" then "all" else t

def healthResponse : Jv :=
  .obj [("status", .str "healthy"), ("service", .str "Money Monitor API"),
        ("version", .str "1.0.0")]

def rootResponse : Jv :=
  .obj [("service", .str "Money Monitor API"), ("version", .str "1.0.0"),
        ("endpoints", .obj
          [("health", .str "GET /health"),
           ("expenses", .obj
             [("add", .str "POST /expenses/add"),
              ("list", .str "GET /expenses/{userId}"),
              ("totals", .str "GET /expenses/totals/{userId}")]),
           ("ai", .obj
             [("merchantSpend", .str "POST /ai/merchant-spend"),
              ("categorySummary", .str "POST /ai/category-summary"),
              ("monthlyTrend", .str "POST /ai/monthly-trend")]),
           ("merchants", .obj
             [("save", .str "POST /merchants/save"),
              ("lookup", .str "GET /merchants/lookup/{userId}/{merchant}")]),
           ("companies", .obj
             [("create", .str "POST /companies/create"),
              ("inviteEmployee",
                .str "POST /companies/{companyId}/invite-employee")])])]

def addExpenseResponse (expenseId : String) : Jv :=
  .obj [("success", .bool true), ("message", .str "Expense added successfully"),
        ("expenseId", .str expenseId)]

def getExpensesResponse (expenses : List Jv) : Jv :=
  .obj [("success", .bool true), ("count", .num expenses.length),
        ("expenses", .arr expenses)]

def expenseTotalsResponse (userId : String) (t : Totals) : Jv :=
  .obj [("success", .bool true), ("userId", .str userId),
        ("totals", .obj [("total", .num t.total), ("personal", .num t.personal),
                         ("business", .num t.business)])]

def spendEntryJson (e : SpendEntry) : Jv :=
  .obj [("date", match e.date with | some s => .str s | none => .null),
        ("amount", .num e.amount), ("category", .str e.category),
        ("note", .str e.note)]

def merchantSpendResponse (r : SpendReport) : Jv :=
  .obj [("success", .bool true), ("merchant", .str r.merchant),
        ("totalSpent", .num r.totalSpent),
        ("transactionCount", .num r.transactionCount),
        ("byCategory", .obj (r.byCategory.map fun kv => (kv.1, .num kv.2))),
        ("expenses", .arr (r.expenses.map spendEntryJson))]

def categorySummaryResponse (userId : String) (tf : Option String)
    (s : SummaryOut) : Jv :=
  .obj [("success", .bool true), ("userId", .str userId),
        ("type", .str (typeOrAll tf)), ("totalSpent", .num s.totalSpent),
        ("categories", .obj (s.categories.map fun kv =>
          (kv.1, .obj [("total", .num kv.2.total), ("count", .num kv.2.count),
                       ("percentage", .num kv.2.percentage)])))]

def monthlyTrendResponse (userId : String) (tf : Option String)
    (trend : List (String × BucketAcc)) : Jv :=
  .obj [("success", .bool true), ("userId", .str userId),
        ("type", .str (typeOrAll tf)),
        ("trend", .obj (trend.map fun kv =>
          (kv.1, .obj [("total", .num kv.2.total),
                       ("count", .num kv.2.count)])))]

/-- A single-quote character, for the f-string messages. -/
def apos : String := String.singleton (Char.ofNat 39)

def saveMerchantResponse (merchant category : String) : Jv :=
  .obj [("success", .bool true),
        ("message", .str ("Merchant " ++ apos ++ merchant ++ apos
          ++ " saved with category " ++ apos ++ category ++ apos))]

def lookupMerchantResponse (r : LookupResult) : Jv :=
  match r with
  | .found m c t =>
    .obj [("success", .bool true), ("found", .bool true), ("merchant", .str m),
          ("category", .str c), ("type", .str t)]
  | .notFound m =>
    .obj [("success", .bool true), ("found", .bool false), ("merchant", .str m)]

def createCompanyResponse (companyId : String) : Jv :=
  .obj [("success", .bool true), ("message", .str "Company created successfully"),
        ("companyId", .str companyId)]

def inviteEmployeeResponse (employeeEmail role : String) : Jv :=
  .obj [("success", .bool true),
        ("message", .str ("Invitation sent to " ++ employeeEmail)),
        ("role", .str role)]

def approvalsResponse (userId : String) : Jv :=
  .obj [("success", .bool true), ("userId", .str userId),
        ("pendingCount", .num 0), ("approvals", .arr [])]

inductive Endpoint
  | health | root | addExpense | listExpenses | expenseTotals
  | merchantSpend | categorySummary | monthlyTrend
  | saveMerchant | lookupMerchant
  | createCompany | inviteEmployee | approvals
deriving DecidableEq

/-- The non-error responses each route can produce, tied to the embedded
computations. -/
inductive Returns : Endpoint → Jv → Prop
  | health : Returns .health healthResponse
  | root : Returns .root rootResponse
  | addExpense (expenseId : String) :
      Returns .addExpense (addExpenseResponse expenseId)
  | listExpenses (xs : List Jv) :
      Returns .listExpenses (getExpensesResponse xs)
  | expenseTotals (u : String) (rs : List ExpenseDoc) :
      Returns .expenseTotals (expenseTotalsResponse u (get_expense_totals rs))
  | merchantSpend (q : SpendQuery) (rs : List ExpenseDoc) :
      Returns .merchantSpend (merchantSpendResponse (merchant_spend q rs))
  | categorySummary (u : String) (tf : Option String) (rs : List ExpenseDoc) :
      Returns .categorySummary
        (categorySummaryResponse u tf (category_summary tf rs))
  | monthlyTrend (u : String) (tf : Option String) (rs : List ExpenseDoc) :
      Returns .monthlyTrend (monthlyTrendResponse u tf (monthly_trend tf rs))
  | saveMerchant (m c : String) :
      Returns .saveMerchant (saveMerchantResponse m c)
  | lookupMerchant (store : MerchantStore) (u m : String) :
      Returns .lookupMerchant (lookupMerchantResponse (lookup_merchant store u m))
  | createCompany (companyId : String) :
      Returns .createCompany (createCompanyResponse companyId)
  | inviteEmployee (em role : String) :
      Returns .inviteEmployee (inviteEmployeeResponse em role)
  | approvals (u : String) : Returns .approvals (approvalsResponse u)

/-- Does a response carry a boolean `success` field set to `true`? -/
def hasSuccessTrue : Jv → Bool
  | .obj fields =>
    match fields.lookup "success" with
    | some (.bool true) => true
    | _ => false
  | _ => false

/-- The `except` clause of each handler: `HTTPException(status_code=400,
detail=str(e))`.  `/health` and the root endpoint have no handler guard. -/
def handlerCatch : Endpoint → String → Option (ℕ × String)
  | .health, _ => none
  | .root, _ => none
  | .addExpense, msg => some (400, msg)
  | .listExpenses, msg => some (400, msg)
  | .expenseTotals, msg => some (400, msg)
  | .merchantSpend, msg => some (400, msg)
  | .categorySummary, msg => some (400, msg)
  | .monthlyTrend, msg => some (400, msg)
  | .saveMerchant, msg => some (400, msg)
  | .lookupMerchant, msg => some (400, msg)
  | .createCompany, msg => some (400, msg)
  | .inviteEmployee, msg => some (400, msg)
  | .approvals, msg => some (400, msg)

/-- C8 counterexample: the `/health` response is a JSON object with no
`success` field at all. -/
theorem response_envelope_cex :
    Returns .health healthResponse ∧ hasSuccessTrue healthResponse = false :=
  ⟨.health, by decide⟩

/-- C8 (amended): every non-error response except those of `/health` and the
root endpoint carries `success: true`, and every handler failure is an HTTP
400 carrying the underlying message. -/
theorem response_envelope_spec :
    (∀ (ep : Endpoint) (j : Jv), Returns ep j → ep ≠ .health → ep ≠ .root →
      hasSuccessTrue j = true) ∧
    (∀ (ep : Endpoint) (msg : String) (r : ℕ × String),
      handlerCatch ep msg = some r → r.1 = 400) := by
  constructor
  · intro ep j h h1 h2
    cases h with
    | health => exact absurd rfl h1
    | root => exact absurd rfl h2
    | lookupMerchant store u m =>
      cases lookup_merchant store u m <;> rfl
    | _ => rfl
  · intro ep msg r h
    cases ep <;> simp [handlerCatch] at h <;> rw [← h]

theorem response_envelope_spec_witness :
    Returns .approvals (approvalsResponse "u1") ∧
    hasSuccessTrue (approvalsResponse "u1") = true ∧
    handlerCatch .addExpense "boom" = some (400, "boom") ∧
    (400, "boom").1 = 400 :=
  ⟨.approvals "u1",
   response_envelope_spec.1 .approvals _ (.approvals "u1")
     (by decide) (by decide),
   rfl,
   response_envelope_spec.2 .addExpense "boom" (400, "boom") rfl⟩
